import Mathlib

/-!
Verification of the credential-lifecycle subsystem of the freeagent-mcp
repository (src/src/auth.ts), as a shallow embedding in Lean 4.

Conventions of the embedding:
* JavaScript numbers used as millisecond timestamps are `Int`.
* `Date.now()` becomes an explicit `now : Int` argument.
* Fallible operations return `Option`/`Except`; a thrown-and-caught
  exception becomes the `none`/`.error` branch.
* The file system, the HTTP fetch and the WHATWG URL parser are the
  environment; they enter as explicit arguments (a file state, a
  response record, a parse function) so every definition is executable.
-/

namespace FreeAgent

/-- `StoredTokens` from src/src/auth.ts: the persisted credential record. -/
structure StoredTokens where
  access_token : String
  refresh_token : String
  expires_at : Int
deriving DecidableEq, Repr

/-- Modelled from the spec: `TOKEN_BUFFER_MS` is imported from
`src/utils.ts`, a file absent from the source tree (only its test,
src/src/utils.test.ts, is present and asserts the value 60000).  The spec
fixes the expiry buffer at 60 seconds. -/
def TOKEN_BUFFER_MS : Int := 60000

/-- `isTokenExpired` from src/src/auth.ts line 52:
`Date.now() >= tokens.expires_at - TOKEN_BUFFER_MS`. -/
def isTokenExpired (now : Int) (tokens : StoredTokens) : Bool :=
  decide (now ≥ tokens.expires_at - TOKEN_BUFFER_MS)

/-- JSON values, the possible results of a successful `JSON.parse`. -/
inductive Json where
  | null : Json
  | bool (b : Bool) : Json
  | num (n : Int) : Json
  | str (s : String) : Json
  | arr (elems : List Json) : Json
  | obj (fields : List (String × Json)) : Json

/-- Whether a parsed JSON value carries all three `StoredTokens` fields
with the expected primitive types.  The TypeScript source never performs
this check: `loadTokens` casts the parse result with `as StoredTokens`. -/
def isFullCredential (v : Json) : Bool :=
  match v with
  | .obj fields =>
    (match fields.lookup "access_token" with
     | some (.str _) => true
     | _ => false) &&
    (match fields.lookup "refresh_token" with
     | some (.str _) => true
     | _ => false) &&
    (match fields.lookup "expires_at" with
     | some (.num _) => true
     | _ => false)
  | _ => false

/-- `loadTokens` from src/src/auth.ts lines 33-40.  The backing file is
modelled by its observable reading outcome: `none` when `readFileSync`
throws (missing file), `some none` when the content makes `JSON.parse`
throw (empty or unparseable), and `some (some v)` when the content parses
to the JSON value `v`.  The `try/catch` collapses both throws to `null`;
a successful parse is returned unvalidated (`JSON.parse(data) as
StoredTokens`). -/
def loadTokens (file : Option (Option Json)) : Option Json :=
  match file with
  | some (some v) => some v
  | _ => none

/-- C5: the expiry predicate holds iff `now >= expires_at - 60000`, and at
exactly `now = expires_at - 60000` the credential counts as expired. -/
theorem c5_expiry_predicate :
    (∀ (now : Int) (t : StoredTokens),
      isTokenExpired now t = true ↔ now ≥ t.expires_at - 60000) ∧
    (∀ t : StoredTokens, isTokenExpired (t.expires_at - 60000) t = true) := by
  constructor
  · intro now t
    simp [isTokenExpired, TOKEN_BUFFER_MS]
  · intro t
    simp [isTokenExpired, TOKEN_BUFFER_MS]

/-- C4 fails on the code: the file content `{}` parses successfully, so
`loadTokens` returns it as a present credential even though none of the
three fields is populated. -/
theorem c4_counterexample :
    loadTokens (some (some (Json.obj []))) = some (Json.obj []) ∧
    isFullCredential (Json.obj []) = false := by
  exact ⟨rfl, rfl⟩

/-- C4 amended: `loadTokens` never throws; it returns absent exactly when
the file is missing or its content fails to parse as JSON, and it returns
any successfully parsed JSON value unchanged, with no field validation. -/
theorem c4_load_collapses_failures (file : Option (Option Json)) :
    (file = none → loadTokens file = none) ∧
    (file = some none → loadTokens file = none) ∧
    (∀ v : Json, file = some (some v) → loadTokens file = some v) := by
  refine ⟨?_, ?_, ?_⟩
  · intro h; subst h; rfl
  · intro h; subst h; rfl
  · intro v h; subst h; rfl

/-- Witness for C4's amended theorem at concrete file states. -/
theorem c4_load_collapses_failures_witness :
    loadTokens none = none ∧
    loadTokens (some none) = none ∧
    loadTokens (some (some (Json.str "x"))) = some (Json.str "x") := by
  exact ⟨(c4_load_collapses_failures none).1 rfl,
    (c4_load_collapses_failures (some none)).2.1 rfl,
    (c4_load_collapses_failures (some (some (Json.str "x")))).2.2 _ rfl⟩

/-- A parsed URL, as far as the callback logic observes one: the pathname
and the ordered query parameters (`searchParams.get` returns the first
value of a repeated key, or `null`). -/
structure URLRec where
  pathname : String
  params : List (String × String)
deriving DecidableEq, Repr

/-- `url.searchParams.get(name)`: first value of the key, else `null`. -/
def getParam (u : URLRec) (name : String) : Option String :=
  (u.params.find? (fun p => p.1 == name)).map (fun p => p.2)

/-- JavaScript truthiness on `string | null`: the empty string and `null`
are both falsy (`if (error)`, `if (!code)`). -/
def truthy : Option String → Option String
  | some s => if s = "" then none else some s
  | none => none

/-- Whitespace as removed by `String.prototype.trim`. -/
def isJsSpace (c : Char) : Bool :=
  c == ' ' || c == '\t' || c == '\n' || c == '\r'

/-- Drop leading JS whitespace from a character list. -/
def dropLeadingSpace : List Char → List Char
  | [] => []
  | c :: cs => if isJsSpace c then dropLeadingSpace cs else c :: cs

/-- `input.trim()`: remove leading and trailing whitespace. -/
def jsTrim (s : String) : String :=
  String.mk ((dropLeadingSpace (dropLeadingSpace s.data).reverse).reverse)

/-- Result type of `parseCallbackUrl`: `{ code }` or `{ error }`. -/
inductive CallbackResult where
  | code (c : String) : CallbackResult
  | error (e : String) : CallbackResult
deriving DecidableEq, Repr

/-- The query-parameter validation of `parseCallbackUrl`
(src/src/auth.ts lines 189-200), shared by both delivery paths: check the
provider `error` parameter, then the `code`, then compare `state` with the
session's expected value (`returnedState !== expectedState`, no
truthiness on the comparison). -/
def validateCallback (url : URLRec) (expectedState : String) : CallbackResult :=
  match truthy (getParam url "error") with
  | some e => .error ("OAuth error: " ++ e)
  | none =>
    match truthy (getParam url "code") with
    | none => .error "No authorization code found in URL"
    | some c =>
      if getParam url "state" = some expectedState then .code c
      else .error "State mismatch - please use the URL from this auth session"

/-- `parseCallbackUrl` from src/src/auth.ts lines 178-201.  `urlParse`
models the WHATWG `new URL(...)` constructor: `none` when it throws on the
(trimmed) input, `some u` when it parses it to `u`.  The surrounding
`try/catch` turns a throw into the `"Not a valid URL"` error. -/
def parseCallbackUrl (urlParse : String → Option URLRec)
    (input : String) (expectedState : String) : CallbackResult :=
  match urlParse (jsTrim input) with
  | none => .error "Not a valid URL"
  | some url => validateCallback url expectedState

/-- C10: `parseCallbackUrl` is total — on every input it yields either a
code or an error result, and an input the URL constructor rejects yields
the `"Not a valid URL"` error rather than an exception. -/
theorem c10_parse_callback_total (urlParse : String → Option URLRec)
    (input expectedState : String) :
    (urlParse (jsTrim input) = none →
      parseCallbackUrl urlParse input expectedState = .error "Not a valid URL") ∧
    ((∃ c, parseCallbackUrl urlParse input expectedState = .code c) ∨
     (∃ e, parseCallbackUrl urlParse input expectedState = .error e)) := by
  constructor
  · intro h
    simp [parseCallbackUrl, h]
  · unfold parseCallbackUrl
    cases urlParse (jsTrim input) with
    | none => exact Or.inr ⟨"Not a valid URL", rfl⟩
    | some u =>
      cases h : validateCallback u expectedState with
      | code c => exact Or.inl ⟨c, by simp [h]⟩
      | error e => exact Or.inr ⟨e, by simp [h]⟩

/-- Witness for C10 at a concrete rejected input. -/
theorem c10_parse_callback_total_witness :
    parseCallbackUrl (fun _ => none) "not a url" "s" = .error "Not a valid URL" := by
  exact (c10_parse_callback_total (fun _ => none) "not a url" "s").1 rfl

/-- A concrete instance of the WHATWG URL constructor on the handful of
callback URLs used in witnesses and counterexamples, mapping each URL
string to its parse (pathname and query parameters) exactly as
`new URL(...)` produces it. -/
def urlParseDemo : String → Option URLRec := fun s =>
  if s = "http://localhost:3456/callback?code=abc&state=good" then
    some ⟨"/callback", [("code", "abc"), ("state", "good")]⟩
  else if s = "http://localhost:3456/callback?state=wrong" then
    some ⟨"/callback", [("state", "wrong")]⟩
  else if s = "http://localhost:3456/callback?code=abc&state=bad" then
    some ⟨"/callback", [("code", "abc"), ("state", "bad")]⟩
  else if s = "http://localhost:3456/callback?error=access_denied" then
    some ⟨"/callback", [("error", "access_denied")]⟩
  else none

/-- C6 fails on the code: on a callback URL with no `code` parameter and a
`state` different from the session's value, `parseCallbackUrl` reports the
missing-code error, not the state-mismatch error — the `code` check runs
before the `state` check (src/src/auth.ts lines 192-198). -/
theorem c6_counterexample :
    "wrong" ≠ "good" ∧
    parseCallbackUrl urlParseDemo
      "http://localhost:3456/callback?state=wrong" "good" =
      .error "No authorization code found in URL" := by
  exact ⟨by decide, by decide⟩

/-- C6 amended: for a callback URL with no (truthy) provider `error`
parameter, a missing or empty `code` yields the missing-code error even
when `state` mismatches; the state-mismatch error fires exactly for URLs
that carry a nonempty `code` and whose `state` is absent or different
from the session's value. -/
theorem c6_check_order (u : URLRec) (expectedState : String)
    (herr : truthy (getParam u "error") = none) :
    (truthy (getParam u "code") = none →
      validateCallback u expectedState =
        .error "No authorization code found in URL") ∧
    (∀ c, truthy (getParam u "code") = some c →
      getParam u "state" ≠ some expectedState →
      validateCallback u expectedState =
        .error "State mismatch - please use the URL from this auth session") ∧
    (∀ c, truthy (getParam u "code") = some c →
      getParam u "state" = some expectedState →
      validateCallback u expectedState = .code c) := by
  refine ⟨?_, ?_, ?_⟩
  · intro hc
    simp [validateCallback, herr, hc]
  · intro c hc hs
    simp [validateCallback, herr, hc, hs]
  · intro c hc hs
    simp [validateCallback, herr, hc, hs]

/-- Witness for C6's amended theorem: a code-less mismatching URL gets the
missing-code error; a URL with a code and a bad state gets the mismatch
error. -/
theorem c6_check_order_witness :
    validateCallback ⟨"/callback", [("state", "wrong")]⟩ "good" =
      .error "No authorization code found in URL" ∧
    validateCallback ⟨"/callback", [("code", "abc"), ("state", "bad")]⟩ "good" =
      .error "State mismatch - please use the URL from this auth session" := by
  exact ⟨(c6_check_order ⟨"/callback", [("state", "wrong")]⟩ "good"
      (by decide)).1 (by decide),
    (c6_check_order ⟨"/callback", [("code", "abc"), ("state", "bad")]⟩ "good"
      (by decide)).2.1 "abc" (by decide) (by decide)⟩

/-- Outcome of a settled auth session: `resolve()` or `reject(msg)`. -/
inductive Outcome where
  | success : Outcome
  | failure (msg : String) : Outcome
deriving DecidableEq, Repr

/-- The mutable state of one `runAuthFlow` session (src/src/auth.ts lines
213-328): the `settled` flag, the three releasable resources (timer,
listener socket, readline channel), the authorization code whose token
exchange is in flight, the promise outcome, and the observable effect
logs (codes passed to `exchangeCodeForTokens`, credentials passed to
`saveTokens`). -/
structure SessionState where
  settled : Bool
  timerActive : Bool
  serverOpen : Bool
  rlOpen : Bool
  pendingCode : Option String
  outcome : Option Outcome
  exchangeCalls : List String
  saves : List StoredTokens
deriving DecidableEq, Repr

/-- The session right after setup on the bound-listener path: timer armed,
server listening, stdin listener started, nothing settled. -/
def initSession : SessionState :=
  { settled := false, timerActive := true, serverOpen := true, rlOpen := true,
    pendingCode := none, outcome := none, exchangeCalls := [], saves := [] }

/-- `cleanup()` (lines 225-229): clear the timer, close the HTTP server
and the readline interface. -/
def cleanup (s : SessionState) : SessionState :=
  { s with timerActive := false, serverOpen := false, rlOpen := false }

/-- The synchronous head of `handleCode` (lines 231-233): bail out if
already settled, otherwise mark settled and start the token exchange for
`c`.  The exchange result arrives later as an `Event.exchangeDone`. -/
def handleCodeStart (s : SessionState) (c : String) : SessionState :=
  if s.settled then s
  else { s with settled := true, pendingCode := some c,
                exchangeCalls := s.exchangeCalls ++ [c] }

/-- The events a waiting session can receive, each running atomically
between suspension points under cooperative scheduling: the 120-second
timer, an HTTP request on the listener (already resolved against the base
URL, so carried as a parsed `URLRec`), a line on stdin, and the completion
of the in-flight `exchangeCodeForTokens` call. -/
inductive Event where
  | timeout : Event
  | listener (req : URLRec) : Event
  | paste (line : String) : Event
  | exchangeDone (r : Except String StoredTokens) : Event

/-- The three completion sources named by the spec (timer, listener
callback, pasted callback); `exchangeDone` is the continuation of a
listener or paste event, not an independent source. -/
def isCompletionSource : Event → Bool
  | .exchangeDone _ => false
  | _ => true

def timeoutMsg : String := "Authentication timed out after 120 seconds"

/-- One atomic transition of `runAuthFlow`.  `sessionState` is the random
`state` string of the session; `urlParse` models `new URL` for pasted
lines.  The listener handler validates `parseCallbackUrl(url.toString(),
state)`; serializing and re-parsing a parsed URL is the identity, so it
validates `req` directly.  The stdin handler ignores empty lines and, per
the source comment, silently ignores lines that parse to an error. -/
def step (urlParse : String → Option URLRec) (sessionState : String)
    (s : SessionState) (e : Event) : SessionState :=
  match e with
  | .timeout =>
    if s.settled then s
    else { cleanup s with settled := true,
                          outcome := some (.failure timeoutMsg) }
  | .listener req =>
    if req.pathname ≠ "/callback" then s
    else
      match validateCallback req sessionState with
      | .error msg =>
        if s.settled then s
        else { cleanup s with settled := true,
                              outcome := some (.failure msg) }
      | .code c => handleCodeStart s c
  | .paste line =>
    if s.settled || jsTrim line == "" then s
    else
      match parseCallbackUrl urlParse line sessionState with
      | .error _ => s
      | .code c => handleCodeStart s c
  | .exchangeDone r =>
    match s.pendingCode with
    | none => s
    | some _ =>
      match r with
      | .ok t =>
        { cleanup s with pendingCode := none, saves := s.saves ++ [t],
                         outcome := some Outcome.success }
      | .error msg =>
        { cleanup s with pendingCode := none,
                         outcome := some (.failure msg) }

/-- Run a session from setup through a list of events. -/
def runSession (urlParse : String → Option URLRec) (sessionState : String)
    (events : List Event) : SessionState :=
  events.foldl (step urlParse sessionState) initSession

/-- Session invariant: an unsettled session has no outcome, no in-flight
exchange and all resources open; a session with an outcome is settled,
has no in-flight exchange and has released every resource. -/
def SessionInv (s : SessionState) : Prop :=
  (s.settled = false →
    s.outcome = none ∧ s.pendingCode = none ∧
    s.timerActive = true ∧ s.serverOpen = true ∧ s.rlOpen = true) ∧
  (s.outcome.isSome = true →
    s.settled = true ∧ s.pendingCode = none ∧
    s.timerActive = false ∧ s.serverOpen = false ∧ s.rlOpen = false)

theorem sessionInv_init : SessionInv initSession := by
  constructor
  · intro _; exact ⟨rfl, rfl, rfl, rfl, rfl⟩
  · intro h; simp [initSession] at h

theorem sessionInv_step (urlParse : String → Option URLRec)
    (sessionState : String) (s : SessionState) (e : Event)
    (hinv : SessionInv s) : SessionInv (step urlParse sessionState s e) := by
  obtain ⟨h1, h2⟩ := hinv
  cases e with
  | timeout =>
    by_cases hs : s.settled = true
    · simpa [step, hs] using ⟨h1, h2⟩
    · simp only [Bool.not_eq_true] at hs
      obtain ⟨-, hp, -, -, -⟩ := h1 hs
      constructor
      · intro h; simp [step, hs] at h
      · intro _; simp [step, hs, cleanup, hp]
  | listener req =>
    by_cases hpath : req.pathname = "/callback"
    · cases hv : validateCallback req sessionState with
      | error msg =>
        by_cases hs : s.settled = true
        · simpa [step, hpath, hv, hs] using ⟨h1, h2⟩
        · simp only [Bool.not_eq_true] at hs
          obtain ⟨-, hp, -, -, -⟩ := h1 hs
          constructor
          · intro h; simp [step, hpath, hv, hs] at h
          · intro _; simp [step, hpath, hv, hs, cleanup, hp]
      | code c =>
        by_cases hs : s.settled = true
        · simpa [step, hpath, hv, handleCodeStart, hs] using ⟨h1, h2⟩
        · simp only [Bool.not_eq_true] at hs
          obtain ⟨ho, -, -, -, -⟩ := h1 hs
          constructor
          · intro h; simp [step, hpath, hv, handleCodeStart, hs] at h
          · intro h
            simp [step, hpath, hv, handleCodeStart, hs, ho] at h
    · simpa [step, hpath] using ⟨h1, h2⟩
  | paste line =>
    by_cases hs : s.settled = true
    · simpa [step, hs] using ⟨h1, h2⟩
    · simp only [Bool.not_eq_true] at hs
      by_cases hl : jsTrim line == ""
      · simpa [step, hs, hl] using ⟨h1, h2⟩
      · cases hv : parseCallbackUrl urlParse line sessionState with
        | error msg => simpa [step, hs, hl, hv] using ⟨h1, h2⟩
        | code c =>
          obtain ⟨ho, -, -, -, -⟩ := h1 hs
          constructor
          · intro h
            simp [step, hs, hl, hv, handleCodeStart] at h
          · intro h
            simp [step, hs, hl, hv, handleCodeStart, ho] at h
  | exchangeDone r =>
    cases hp : s.pendingCode with
    | none => simpa [step, hp] using ⟨h1, h2⟩
    | some c =>
      have hs : s.settled = true := by
        by_contra hx
        simp only [Bool.not_eq_true] at hx
        obtain ⟨-, hpn, -, -, -⟩ := h1 hx
        rw [hp] at hpn; exact Option.noConfusion hpn
      cases r with
      | ok t =>
        constructor
        · intro h; simp [step, hp, cleanup, hs] at h
        · intro _; simp [step, hp, cleanup, hs]
      | error msg =>
        constructor
        · intro h; simp [step, hp, cleanup, hs] at h
        · intro _; simp [step, hp, cleanup, hs]

theorem sessionInv_foldl (urlParse : String → Option URLRec)
    (sessionState : String) (events : List Event) (s : SessionState)
    (hinv : SessionInv s) :
    SessionInv (events.foldl (step urlParse sessionState) s) := by
  induction events generalizing s with
  | nil => exact hinv
  | cons e es ih =>
    exact ih _ (sessionInv_step urlParse sessionState s e hinv)

theorem sessionInv_run (urlParse : String → Option URLRec)
    (sessionState : String) (events : List Event) :
    SessionInv (runSession urlParse sessionState events) :=
  sessionInv_foldl urlParse sessionState events initSession sessionInv_init

/-- A settled session absorbs every further completion-source event
unchanged. -/
theorem step_settled_absorbs (urlParse : String → Option URLRec)
    (sessionState : String) (s : SessionState) (e : Event)
    (hs : s.settled = true) (he : isCompletionSource e = true) :
    step urlParse sessionState s e = s := by
  cases e with
  | timeout => simp [step, hs]
  | listener req =>
    by_cases hpath : req.pathname = "/callback"
    · cases hv : validateCallback req sessionState with
      | error msg => simp [step, hpath, hv, hs]
      | code c => simp [step, hpath, hv, handleCodeStart, hs]
    · simp [step, hpath]
  | paste line => simp [step, hs]
  | exchangeDone r => simp [isCompletionSource] at he

/-- A session that has produced its outcome absorbs every event. -/
theorem step_outcome_absorbs (urlParse : String → Option URLRec)
    (sessionState : String) (s : SessionState) (e : Event)
    (hinv : SessionInv s) (ho : s.outcome.isSome = true) :
    step urlParse sessionState s e = s := by
  obtain ⟨hs, hp, -, -, -⟩ := hinv.2 ho
  cases e with
  | exchangeDone r => simp [step, hp]
  | timeout => exact step_settled_absorbs _ _ _ _ hs rfl
  | listener req => exact step_settled_absorbs _ _ _ _ hs rfl
  | paste line => exact step_settled_absorbs _ _ _ _ hs rfl

/-- C3: after any event sequence, (a) once the session has resolved or
rejected, the timer, listener socket and stdin channel are all released,
whatever the outcome; (b) once settled, any further completion-source
event leaves the session unchanged; (c) once the outcome exists, every
event whatsoever (including a late exchange completion) leaves the
session unchanged — the first source to fire is the only one that ever
resolves or rejects. -/
theorem c3_exactly_once_settlement (urlParse : String → Option URLRec)
    (sessionState : String) (events : List Event) :
    ((runSession urlParse sessionState events).outcome.isSome = true →
      (runSession urlParse sessionState events).timerActive = false ∧
      (runSession urlParse sessionState events).serverOpen = false ∧
      (runSession urlParse sessionState events).rlOpen = false) ∧
    ((runSession urlParse sessionState events).settled = true →
      ∀ e, isCompletionSource e = true →
        step urlParse sessionState (runSession urlParse sessionState events) e =
          runSession urlParse sessionState events) ∧
    ((runSession urlParse sessionState events).outcome.isSome = true →
      ∀ e, step urlParse sessionState (runSession urlParse sessionState events) e =
        runSession urlParse sessionState events) := by
  have hinv := sessionInv_run urlParse sessionState events
  refine ⟨?_, ?_, ?_⟩
  · intro ho
    obtain ⟨-, -, ht, hsv, hr⟩ := hinv.2 ho
    exact ⟨ht, hsv, hr⟩
  · intro hs e he
    exact step_settled_absorbs urlParse sessionState _ e hs he
  · intro ho e
    exact step_outcome_absorbs urlParse sessionState _ e hinv ho

/-- Witness for C3: a session settled by the timeout has released all
resources, and a subsequently pasted valid callback URL is a no-op. -/
theorem c3_exactly_once_settlement_witness :
    ((runSession urlParseDemo "good" [Event.timeout]).timerActive = false ∧
     (runSession urlParseDemo "good" [Event.timeout]).serverOpen = false ∧
     (runSession urlParseDemo "good" [Event.timeout]).rlOpen = false) ∧
    step urlParseDemo "good" (runSession urlParseDemo "good" [Event.timeout])
        (Event.paste "http://localhost:3456/callback?code=abc&state=good") =
      runSession urlParseDemo "good" [Event.timeout] := by
  exact ⟨(c3_exactly_once_settlement urlParseDemo "good" [Event.timeout]).1
      (by decide),
    (c3_exactly_once_settlement urlParseDemo "good" [Event.timeout]).2.2
      (by decide) _⟩

/-- C2 fails on the code: pasting a callback URL with a superficially
valid code but the wrong `state` into a fresh session does NOT fail the
session — the line is silently ignored (src/src/auth.ts lines 250-255),
the session stays unsettled and may still succeed later.  (The token
exchange is indeed not invoked.) -/
theorem c2_counterexample :
    (step urlParseDemo "good" initSession
      (Event.paste "http://localhost:3456/callback?code=abc&state=bad")).settled
        = false ∧
    (step urlParseDemo "good" initSession
      (Event.paste "http://localhost:3456/callback?code=abc&state=bad")).outcome
        = none ∧
    (step urlParseDemo "good" initSession
      (Event.paste "http://localhost:3456/callback?code=abc&state=bad")).exchangeCalls
        = [] := by
  refine ⟨by decide, by decide, by decide⟩

/-- C2 amended: a callback URL whose `state` mismatches never triggers
`exchangeCodeForTokens` on either delivery path; delivered through the
listener it settles an unsettled session with the state-mismatch failure,
while pasted on stdin it is ignored and the session state is unchanged. -/
theorem c2_state_mismatch_no_exchange (urlParse : String → Option URLRec)
    (sessionState : String) (s : SessionState) (u : URLRec) (line : String)
    (hpath : u.pathname = "/callback")
    (hval : validateCallback u sessionState =
      .error "State mismatch - please use the URL from this auth session")
    (hline : urlParse (jsTrim line) = some u) :
    (step urlParse sessionState s (.listener u)).exchangeCalls =
      s.exchangeCalls ∧
    (s.settled = false →
      (step urlParse sessionState s (.listener u)).outcome =
        some (.failure
          "State mismatch - please use the URL from this auth session")) ∧
    step urlParse sessionState s (.paste line) = s := by
  refine ⟨?_, ?_, ?_⟩
  · by_cases hs : s.settled = true
    · simp [step, hpath, hval, hs]
    · simp only [Bool.not_eq_true] at hs
      simp [step, hpath, hval, hs, cleanup]
  · intro hs
    simp [step, hpath, hval, hs, cleanup]
  · by_cases hs : s.settled = true
    · simp [step, hs]
    · simp only [Bool.not_eq_true] at hs
      by_cases hl : jsTrim line == ""
      · simp [step, hs, hl]
      · simp [step, hs, hl, parseCallbackUrl, hline, hval]

/-- Witness for C2's amended theorem: the mismatched URL
`...?code=abc&state=bad` against session state `"good"` settles the
listener path with the state-mismatch failure, makes no exchange call,
and is a no-op when pasted. -/
theorem c2_state_mismatch_no_exchange_witness :
    (step urlParseDemo "good" initSession
      (Event.listener ⟨"/callback", [("code", "abc"), ("state", "bad")]⟩)).exchangeCalls
        = [] ∧
    (step urlParseDemo "good" initSession
      (Event.listener ⟨"/callback", [("code", "abc"), ("state", "bad")]⟩)).outcome
        = some (.failure
          "State mismatch - please use the URL from this auth session") ∧
    step urlParseDemo "good" initSession
      (Event.paste "http://localhost:3456/callback?code=abc&state=bad")
        = initSession := by
  have h := c2_state_mismatch_no_exchange urlParseDemo "good" initSession
    ⟨"/callback", [("code", "abc"), ("state", "bad")]⟩
    "http://localhost:3456/callback?code=abc&state=bad"
    (by decide) (by decide) (by decide)
  exact ⟨h.1, h.2.1 (by decide), h.2.2⟩

/-- C7 fails on the code: a pasted callback URL carrying a provider
`error` parameter parses to the error `"OAuth error: access_denied"`, yet
the paste path does not settle the session — the line is silently
ignored, unlike the listener path. -/
theorem c7_counterexample :
    parseCallbackUrl urlParseDemo
      "http://localhost:3456/callback?error=access_denied" "good" =
      .error "OAuth error: access_denied" ∧
    step urlParseDemo "good" initSession
      (Event.paste "http://localhost:3456/callback?error=access_denied") =
      initSession := by
  refine ⟨by decide, by decide⟩

/-- C7 amended: both delivery paths run the same validation
(`parseCallbackUrl` on a pasted line agrees with the validation of the
parsed URL), and a callback parsing to any error settles an unsettled
session with that error on the listener path, while on the paste path the
erroneous line is silently ignored and the session keeps waiting. -/
theorem c7_uniform_parse_paths (urlParse : String → Option URLRec)
    (sessionState : String) (s : SessionState) (u : URLRec)
    (line msg : String)
    (hpath : u.pathname = "/callback")
    (hval : validateCallback u sessionState = .error msg)
    (hline : urlParse (jsTrim line) = some u)
    (hs : s.settled = false) :
    parseCallbackUrl urlParse line sessionState =
      validateCallback u sessionState ∧
    (step urlParse sessionState s (.listener u)).outcome =
      some (.failure msg) ∧
    step urlParse sessionState s (.paste line) = s := by
  refine ⟨?_, ?_, ?_⟩
  · simp [parseCallbackUrl, hline]
  · simp [step, hpath, hval, hs, cleanup]
  · by_cases hl : jsTrim line == ""
    · simp [step, hs, hl]
    · simp [step, hs, hl, parseCallbackUrl, hline, hval]

/-- Witness for C7's amended theorem on the provider-error URL. -/
theorem c7_uniform_parse_paths_witness :
    parseCallbackUrl urlParseDemo
      "http://localhost:3456/callback?error=access_denied" "good" =
      validateCallback ⟨"/callback", [("error", "access_denied")]⟩ "good" ∧
    (step urlParseDemo "good" initSession
      (Event.listener ⟨"/callback", [("error", "access_denied")]⟩)).outcome =
      some (.failure "OAuth error: access_denied") ∧
    step urlParseDemo "good" initSession
      (Event.paste "http://localhost:3456/callback?error=access_denied") =
      initSession := by
  exact c7_uniform_parse_paths urlParseDemo "good" initSession
    ⟨"/callback", [("error", "access_denied")]⟩
    "http://localhost:3456/callback?error=access_denied"
    "OAuth error: access_denied"
    (by decide) (by decide) (by decide) (by decide)

/-- The provider's JSON body for a successful token-endpoint response:
`{ access_token, refresh_token, expires_in }` (`expires_in` in seconds). -/
structure TokenResponseBody where
  access_token : String
  refresh_token : String
  expires_in : Int
deriving DecidableEq, Repr

/-- An HTTP response from the token endpoint as the two exchange
functions observe it: `ok`/`status`, the raw text consumed on failure,
and the parsed JSON body consumed on success. -/
structure HttpResponse where
  ok : Bool
  status : Nat
  bodyText : String
  body : TokenResponseBody
deriving DecidableEq, Repr

/-- `refreshAccessToken` from src/src/auth.ts lines 56-93, with the fetch
response and `Date.now()` as explicit inputs: on a non-ok status it
throws `Token refresh failed (<status>): <body>`, otherwise it returns
the new credential with `expires_at = now + expires_in * 1000` and
whatever refresh token the provider returned. -/
def refreshAccessToken (now : Int) (resp : HttpResponse) :
    Except String StoredTokens :=
  if resp.ok = false then
    .error ("Token refresh failed (" ++ toString resp.status ++ "): "
      ++ resp.bodyText)
  else
    .ok { access_token := resp.body.access_token,
          refresh_token := resp.body.refresh_token,
          expires_at := now + resp.body.expires_in * 1000 }

/-- `exchangeCodeForTokens` from src/src/auth.ts lines 138-176: the same
transport and result shape as the refresh, with the error text
`Token exchange failed (<status>): <body>`. -/
def exchangeCodeForTokens (now : Int) (resp : HttpResponse) :
    Except String StoredTokens :=
  if resp.ok = false then
    .error ("Token exchange failed (" ++ toString resp.status ++ "): "
      ++ resp.bodyText)
  else
    .ok { access_token := resp.body.access_token,
          refresh_token := resp.body.refresh_token,
          expires_at := now + resp.body.expires_in * 1000 }

/-- The observable side effects of one `getValidAccessToken` call.  The
function body (src/src/auth.ts lines 97-125) contains no path that starts
the interactive flow, so `interactiveAuth` is never emitted. -/
inductive SupAction where
  | refreshHttp : SupAction
  | interactiveAuth : SupAction
  | save (t : StoredTokens) : SupAction
deriving DecidableEq, Repr

def noTokensMsg : String :=
  "No stored tokens found. Run `npx freeagent-mcp-server auth` to authenticate."

/-- What a caller awaiting a refresh promise obtains from its settlement:
the new access token, or the rethrown refresh error. -/
def outcomeOf : Except String StoredTokens → Except String String
  | .ok t => .ok t.access_token
  | .error e => .error e

/-- One sequential run of `getValidAccessToken` (src/src/auth.ts lines
97-125).  `stored` is the `loadTokens()` result (assumed shaped, per the
cast), `inFlight` the eventual value of an already-installed
`refreshPromise` if any, and `refreshResult` the result a freshly started
refresh call would produce.  Returns the call's result together with the
list of performed effects. -/
def getValidAccessTokenSeq (now : Int) (stored : Option StoredTokens)
    (inFlight : Option (Except String StoredTokens))
    (refreshResult : Except String StoredTokens) :
    Except String String × List SupAction :=
  match stored with
  | none => (.error noTokensMsg, [])
  | some tokens =>
    if isTokenExpired now tokens = false then (.ok tokens.access_token, [])
    else
      match inFlight with
      | some r => (outcomeOf r, [])
      | none =>
        match refreshResult with
        | .ok newTokens =>
          (.ok newTokens.access_token, [.refreshHttp, .save newTokens])
        | .error e => (.error e, [.refreshHttp])

/-- C9: with no stored credential, `getValidAccessToken` fails with the
fatal no-stored-tokens error and performs no effect at all (no network
call, no interactive authorization); with a stored, unexpired credential
it returns its access token, again with no effects. -/
theorem c9_supervisor_paths (now : Int) (stored : Option StoredTokens)
    (inFlight : Option (Except String StoredTokens))
    (refreshResult : Except String StoredTokens) :
    (stored = none →
      getValidAccessTokenSeq now stored inFlight refreshResult =
        (.error noTokensMsg, [])) ∧
    (∀ t, stored = some t → isTokenExpired now t = false →
      getValidAccessTokenSeq now stored inFlight refreshResult =
        (.ok t.access_token, [])) := by
  constructor
  · intro h; subst h; rfl
  · intro t h hfresh
    subst h
    simp [getValidAccessTokenSeq, hfresh]

/-- Witness for C9: absent credential, and a credential one hour from
expiry at `now = 0`. -/
theorem c9_supervisor_paths_witness :
    getValidAccessTokenSeq 0 none none (.error "unused") =
      (.error noTokensMsg, []) ∧
    getValidAccessTokenSeq 0 (some ⟨"a", "r", 3600000⟩) none (.error "unused") =
      (.ok "a", []) := by
  exact ⟨(c9_supervisor_paths 0 none none (.error "unused")).1 rfl,
    (c9_supervisor_paths 0 (some ⟨"a", "r", 3600000⟩) none
      (.error "unused")).2 ⟨"a", "r", 3600000⟩ rfl (by decide)⟩

/-- C8: on a successful response both exchange operations return the
credential with `expires_at = now + expires_in * 1000` and exactly the
provider's refresh token; on a non-success status both fail with an error
carrying the status code and raw body; and a failed refresh or exchange
never persists a credential (no save effect in the supervisor, no
`saveTokens` call in the session). -/
theorem c8_exchange_contract (now : Int) (resp : HttpResponse) :
    (resp.ok = true →
      refreshAccessToken now resp =
        .ok { access_token := resp.body.access_token,
              refresh_token := resp.body.refresh_token,
              expires_at := now + resp.body.expires_in * 1000 } ∧
      exchangeCodeForTokens now resp =
        .ok { access_token := resp.body.access_token,
              refresh_token := resp.body.refresh_token,
              expires_at := now + resp.body.expires_in * 1000 }) ∧
    (resp.ok = false →
      refreshAccessToken now resp =
        .error ("Token refresh failed (" ++ toString resp.status ++ "): "
          ++ resp.bodyText) ∧
      exchangeCodeForTokens now resp =
        .error ("Token exchange failed (" ++ toString resp.status ++ "): "
          ++ resp.bodyText)) ∧
    (∀ (n : Int) (stored : Option StoredTokens)
        (inFlight : Option (Except String StoredTokens)) (e : String)
        (t : StoredTokens),
      SupAction.save t ∉ (getValidAccessTokenSeq n stored inFlight (.error e)).2) ∧
    (∀ (urlParse : String → Option URLRec) (sessionState e : String)
        (s : SessionState),
      (step urlParse sessionState s (.exchangeDone (.error e))).saves =
        s.saves) := by
  refine ⟨?_, ?_, ?_, ?_⟩
  · intro h
    constructor <;> simp [refreshAccessToken, exchangeCodeForTokens, h]
  · intro h
    constructor <;> simp [refreshAccessToken, exchangeCodeForTokens, h]
  · intro n stored inFlight e t
    match stored with
    | none => simp [getValidAccessTokenSeq]
    | some tokens =>
      by_cases hfresh : isTokenExpired n tokens = false
      · simp [getValidAccessTokenSeq, hfresh]
      · match inFlight with
        | some r => simp [getValidAccessTokenSeq, hfresh]
        | none => simp [getValidAccessTokenSeq, hfresh]
  · intro urlParse sessionState e s
    match hp : s.pendingCode with
    | none => simp [step, hp]
    | some c => simp [step, hp, cleanup]

/-- Witness for C8 at a concrete successful refresh response and a
concrete failed exchange response. -/
theorem c8_exchange_contract_witness :
    refreshAccessToken 100 ⟨true, 200, "", ⟨"b", "r2", 7200⟩⟩ =
      .ok ⟨"b", "r2", 100 + 7200 * 1000⟩ ∧
    exchangeCodeForTokens 0 ⟨false, 401, "denied", ⟨"", "", 0⟩⟩ =
      .error ("Token exchange failed (" ++ toString (401 : Nat) ++ "): "
        ++ "denied") := by
  exact ⟨((c8_exchange_contract 100 ⟨true, 200, "", ⟨"b", "r2", 7200⟩⟩).1 rfl).1,
    ((c8_exchange_contract 0 ⟨false, 401, "denied", ⟨"", "", 0⟩⟩).2.1 rfl).2⟩

instance {ε α : Type} [DecidableEq ε] [DecidableEq α] :
    DecidableEq (Except ε α) := fun a b =>
  match a, b with
  | .ok x, .ok y =>
    if h : x = y then .isTrue (by rw [h])
    else .isFalse (fun hc => h (Except.ok.inj hc))
  | .ok _, .error _ => .isFalse (fun hc => Except.noConfusion hc)
  | .error _, .ok _ => .isFalse (fun hc => Except.noConfusion hc)
  | .error x, .error y =>
    if h : x = y then .isTrue (by rw [h])
    else .isFalse (fun hc => h (Except.error.inj hc))

/-- Where one concurrent `getValidAccessToken` caller stands: not yet
invoked; the caller that installed `refreshPromise` and started the
refresh HTTP call (the owner); a caller awaiting the already-installed
promise; or finished with its result. -/
inductive CallerPhase where
  | notStarted : CallerPhase
  | owner : CallerPhase
  | waiter : CallerPhase
  | done (r : Except String String) : CallerPhase
deriving DecidableEq, Repr

/-- Shared state of the Access Token Supervisor under cooperative
concurrency: the stored credential file, the module-level `refreshPromise`
cell (`inFlight`), the number of refresh HTTP calls started, and each
caller's phase. -/
structure SupSt where
  tokens : Option StoredTokens
  inFlight : Bool
  refreshCalls : Nat
  callers : List CallerPhase
deriving DecidableEq, Repr

/-- The synchronous prefix of `getValidAccessToken` for caller `i`
(src/src/auth.ts lines 100-118): under cooperative scheduling the code
from `loadTokens()` up to the first `await` runs atomically — load and
check the credential, then either finish immediately, join the in-flight
refresh, or install `refreshPromise` and start the one refresh call. -/
def startStep (now : Int) (s : SupSt) (i : Nat) : SupSt :=
  match s.callers[i]? with
  | some CallerPhase.notStarted =>
    match s.tokens with
    | none =>
      { s with callers := s.callers.set i (.done (.error noTokensMsg)) }
    | some t =>
      if isTokenExpired now t = false then
        { s with callers := s.callers.set i (.done (.ok t.access_token)) }
      else if s.inFlight then
        { s with callers := s.callers.set i CallerPhase.waiter }
      else
        { s with inFlight := true, refreshCalls := s.refreshCalls + 1,
                 callers := s.callers.set i CallerPhase.owner }
  | _ => s

/-- Settlement of the single in-flight refresh call with result `r`: the
owner resumes (on success it saves the new credential, and in its
`finally` clears `refreshPromise`), and every waiter resumes with the
same promise value — the same token or the same rethrown error. -/
def resolveStep (s : SupSt) (r : Except String StoredTokens) : SupSt :=
  { tokens := match r with | .ok t => some t | .error _ => s.tokens,
    inFlight := false,
    refreshCalls := s.refreshCalls,
    callers := s.callers.map (fun c =>
      match c with
      | .owner => .done (outcomeOf r)
      | .waiter => .done (outcomeOf r)
      | other => other) }

/-- Run the callers' synchronous prefixes in the scheduler-chosen order. -/
def runStarts (now : Int) (s : SupSt) (order : List Nat) : SupSt :=
  order.foldl (startStep now) s

/-- Supervisor state at the moment the N concurrent calls begin: the
credential `t0` is on disk, `refreshPromise` is null, no refresh call has
been made, no caller has run. -/
def initSup (n : Nat) (t0 : StoredTokens) : SupSt :=
  { tokens := some t0, inFlight := false, refreshCalls := 0,
    callers := List.replicate n CallerPhase.notStarted }

theorem runStarts_nil (now : Int) (s : SupSt) : runStarts now s [] = s := rfl

theorem runStarts_cons (now : Int) (s : SupSt) (a : Nat) (l : List Nat) :
    runStarts now s (a :: l) = runStarts now (startStep now s a) l := rfl

theorem lt_length_of_getElem?_some {α : Type} {l : List α} {i : Nat} {a : α}
    (h : l[i]? = some a) : i < l.length := by
  by_contra hn
  push_neg at hn
  rw [List.getElem?_eq_none hn] at h
  exact Option.noConfusion h

theorem startStep_frozen (now : Int) (s : SupSt) (a : Nat)
    (h : s.callers[a]? ≠ some CallerPhase.notStarted) :
    startStep now s a = s := by
  unfold startStep
  cases hc : s.callers[a]? with
  | none => rfl
  | some c =>
    cases c with
    | notStarted => exact absurd hc h
    | owner => rfl
    | waiter => rfl
    | done r => rfl

/-- While a refresh is in flight, every further caller prefix joins it as
a waiter: the call count, the in-flight flag and the stored credential
are untouched, and exactly the not-yet-started callers listed in `l`
move to `waiter`. -/
theorem runStarts_waiters (now : Int) (t0 : StoredTokens)
    (hexp : isTokenExpired now t0 = true) (l : List Nat) :
    ∀ s : SupSt, s.inFlight = true → s.tokens = some t0 →
      (runStarts now s l).refreshCalls = s.refreshCalls ∧
      (runStarts now s l).inFlight = true ∧
      (runStarts now s l).tokens = some t0 ∧
      (∀ j, (runStarts now s l).callers[j]? =
        if j ∈ l ∧ s.callers[j]? = some CallerPhase.notStarted
        then some CallerPhase.waiter else s.callers[j]?) := by
  induction l with
  | nil =>
    intro s hf ht
    refine ⟨rfl, hf, ht, fun j => ?_⟩
    simp [runStarts_nil]
  | cons a l ih =>
    intro s hf ht
    by_cases hc : s.callers[a]? = some CallerPhase.notStarted
    · have halen : a < s.callers.length := lt_length_of_getElem?_some hc
      have hs1 : startStep now s a =
          { s with callers := s.callers.set a CallerPhase.waiter } := by
        simp [startStep, hc, ht, hexp, hf]
      obtain ⟨h1, h2, h3, h4⟩ :=
        ih { s with callers := s.callers.set a CallerPhase.waiter } hf ht
      rw [runStarts_cons, hs1]
      refine ⟨h1, h2, h3, fun j => ?_⟩
      rw [h4 j]
      by_cases hja : j = a
      · subst hja
        have hset : (s.callers.set j CallerPhase.waiter)[j]? =
            some CallerPhase.waiter :=
          List.getElem?_set_eq_of_lt CallerPhase.waiter halen
        simp [hset, hc]
      · have hset : (s.callers.set a CallerPhase.waiter)[j]? = s.callers[j]? :=
          List.getElem?_set_ne (fun h => hja h.symm)
        rw [hset]
        simp [List.mem_cons, hja]
    · have hs1 : startStep now s a = s := startStep_frozen now s a hc
      obtain ⟨h1, h2, h3, h4⟩ := ih s hf ht
      rw [runStarts_cons, hs1]
      refine ⟨h1, h2, h3, fun j => ?_⟩
      rw [h4 j]
      by_cases hja : j = a
      · subst hja
        simp [hc]
      · simp [List.mem_cons, hja]

theorem resolveStep_done (s : SupSt) (r : Except String StoredTokens) (i : Nat)
    (h : s.callers[i]? = some CallerPhase.owner ∨
         s.callers[i]? = some CallerPhase.waiter) :
    (resolveStep s r).callers[i]? = some (CallerPhase.done (outcomeOf r)) := by
  rcases h with h | h <;> simp [resolveStep, List.getElem?_map, h]

/-- C1: N ≥ 1 callers entering `getValidAccessToken` concurrently (their
synchronous prefixes scheduled in an arbitrary order, all while the
stored credential `t0` is expired and no refresh is in flight) make
exactly one refresh HTTP call; at every intermediate schedule point at
most one refresh call has ever been started; and when the refresh
settles with `r`, every one of the N callers finishes with the same
result — the same access token on success, the same error on failure. -/
theorem c1_single_flight (n : Nat) (t0 : StoredTokens) (now : Int)
    (order : List Nat) (r : Except String StoredTokens)
    (hN : 0 < n)
    (hexp : isTokenExpired now t0 = true)
    (hcover : ∀ i, i < n → i ∈ order)
    (hlt : ∀ i ∈ order, i < n)
    (hnd : order.Nodup) :
    (resolveStep (runStarts now (initSup n t0) order) r).refreshCalls = 1 ∧
    (∀ i, i < n →
      (resolveStep (runStarts now (initSup n t0) order) r).callers[i]? =
        some (CallerPhase.done (outcomeOf r))) ∧
    (∀ p q, order = p ++ q →
      (runStarts now (initSup n t0) p).refreshCalls ≤ 1) := by
  obtain ⟨o, rest, rfl⟩ : ∃ o rest, order = o :: rest := by
    cases order with
    | nil => exact absurd (hcover 0 hN) (by simp)
    | cons o rest => exact ⟨o, rest, rfl⟩
  have ho : o < n := hlt o (List.mem_cons_self o rest)
  have honr : o ∉ rest := (List.nodup_cons.mp hnd).1
  have hrepl : (List.replicate n CallerPhase.notStarted)[o]? =
      some CallerPhase.notStarted := by
    simp [List.getElem?_replicate, ho]
  have hs1 : startStep now (initSup n t0) o =
      { tokens := some t0, inFlight := true, refreshCalls := 1,
        callers :=
          (List.replicate n CallerPhase.notStarted).set o CallerPhase.owner } := by
    simp [startStep, initSup, hrepl, hexp]
  obtain ⟨h1, h2, h3, h4⟩ := runStarts_waiters now t0 hexp rest
    { tokens := some t0, inFlight := true, refreshCalls := 1,
      callers :=
        (List.replicate n CallerPhase.notStarted).set o CallerPhase.owner }
    rfl rfl
  have hrun : runStarts now (initSup n t0) (o :: rest) =
      runStarts now
        { tokens := some t0, inFlight := true, refreshCalls := 1,
          callers :=
            (List.replicate n CallerPhase.notStarted).set o CallerPhase.owner }
        rest := by
    rw [runStarts_cons, hs1]
  refine ⟨?_, ?_, ?_⟩
  · show (runStarts now (initSup n t0) (o :: rest)).refreshCalls = 1
    rw [hrun, h1]
  · intro i hi
    have hcall : (runStarts now (initSup n t0) (o :: rest)).callers[i]? =
        some CallerPhase.owner ∨
        (runStarts now (initSup n t0) (o :: rest)).callers[i]? =
        some CallerPhase.waiter := by
      rw [hrun, h4 i]
      by_cases hio : i = o
      · rw [hio]
        have hset :
            ((List.replicate n CallerPhase.notStarted).set o
              CallerPhase.owner)[o]? = some CallerPhase.owner :=
          List.getElem?_set_eq_of_lt CallerPhase.owner (by simpa using ho)
        rw [if_neg]
        · exact Or.inl hset
        · intro hcontra
          exact honr hcontra.1
      · have hmem : i ∈ rest := by
          rcases List.mem_cons.mp (hcover i hi) with h | h
          · exact absurd h hio
          · exact h
        have hset :
            ((List.replicate n CallerPhase.notStarted).set o
              CallerPhase.owner)[i]? = some CallerPhase.notStarted := by
          rw [List.getElem?_set_ne (fun h => hio h.symm)]
          simp [List.getElem?_replicate, hi]
        rw [if_pos ⟨hmem, hset⟩]
        exact Or.inr rfl
    exact resolveStep_done _ r i hcall
  · intro p q hpq
    cases p with
    | nil =>
      rw [runStarts_nil]
      exact Nat.zero_le 1
    | cons p0 p2 =>
      rw [List.cons_append] at hpq
      injection hpq with hp0 hrest
      subst hp0
      obtain ⟨hc1, -, -, -⟩ := runStarts_waiters now t0 hexp p2
        { tokens := some t0, inFlight := true, refreshCalls := 1,
          callers :=
            (List.replicate n CallerPhase.notStarted).set o CallerPhase.owner }
        rfl rfl
      rw [runStarts_cons, hs1, hc1]

/-- Witness for C1: two concurrent callers scheduled second-first over an
expired credential, refresh succeeding with token `"b"`: one refresh
call, both callers end with `.ok "b"`, and the empty schedule prefix has
made no call. -/
theorem c1_single_flight_witness :
    (resolveStep (runStarts 0 (initSup 2 ⟨"a", "r", 0⟩) [1, 0])
      (.ok ⟨"b", "r2", 7200000⟩)).refreshCalls = 1 ∧
    (resolveStep (runStarts 0 (initSup 2 ⟨"a", "r", 0⟩) [1, 0])
      (.ok ⟨"b", "r2", 7200000⟩)).callers[0]? =
      some (CallerPhase.done (.ok "b")) ∧
    (runStarts 0 (initSup 2 ⟨"a", "r", 0⟩) []).refreshCalls ≤ 1 := by
  have h := c1_single_flight 2 ⟨"a", "r", 0⟩ 0 [1, 0] (.ok ⟨"b", "r2", 7200000⟩)
    (by decide) (by decide) (by decide) (by decide) (by decide)
  exact ⟨h.1, h.2.1 0 (by decide), h.2.2 [] [1, 0] rfl⟩

end FreeAgent
